import Mathlib

/-!
Shallow embedding of the Kinde workflow-examples repository (TypeScript) in
Lean 4, together with theorems settling the specification claims.

Each workflow handler is embedded as a pure, total Lean function.  JavaScript
string mechanics (trim, toLowerCase, split, Array.prototype.join) are embedded
as structural functions on character lists so that all definitions evaluate in
the kernel.  Host side effects are modelled by outputs: a handler returns a
description of the outbound call it would issue (or none), and fallible
collaborator calls are passed in as Except-valued parameters.  Thrown
exceptions are modelled with Except.
-/

namespace WorkflowExamples

/-! ## JavaScript string primitives -/

/-- One step of JavaScript String.prototype.split on a single character
separator, working over the character list.  JS split always returns a
non-empty array; splitting the empty string yields one empty segment. -/
def splitCharAux (c : Char) : List Char → List Char → List (List Char)
  | [], acc => [acc.reverse]
  | x :: xs, acc =>
    if x = c then acc.reverse :: splitCharAux c xs [] else splitCharAux c xs (x :: acc)

/-- JavaScript String.prototype.split with a one-character separator. -/
def jsSplit (c : Char) (s : String) : List String :=
  (splitCharAux c s.data []).map (fun l => String.mk l)

/-- Characters removed by JavaScript String.prototype.trim (whitespace). -/
def jsWs (c : Char) : Bool := c.isWhitespace

/-- JavaScript String.prototype.trim on a character list: drop whitespace from
both ends. -/
def jsTrimList (l : List Char) : List Char :=
  (((l.dropWhile jsWs).reverse.dropWhile jsWs)).reverse

/-- JavaScript String.prototype.trim. -/
def jsTrim (s : String) : String := String.mk (jsTrimList s.data)

/-- JavaScript String.prototype.toLowerCase, restricted to the ASCII range
actually exercised by the workflows (provider and attribute names). -/
def jsToLower (s : String) : String := String.mk (s.data.map Char.toLower)

/-- JavaScript Array.prototype.join with a separator: empty array joins to the
empty string, and elements are interleaved with the separator. -/
def joinSep (sep : String) : List String → String
  | [] => ""
  | x :: xs => xs.foldl (fun acc y => acc ++ sep ++ y) x

/-! ## JavaScript Map / plain-object property model

A JS Map (and the Record objects used for property batches) is embedded as an
association list.  Map.prototype.set replaces an existing key in place keeping
its original insertion position, and otherwise appends; Map.prototype.get is
lookup on the first (unique) matching key. -/

/-- JS Map.prototype.get / object property read. -/
def mapGet (k : String) : List (String × α) → Option α
  | [] => none
  | (k', v) :: rest => if k = k' then some v else mapGet k rest

/-- JS Map.prototype.set / object property write: replace in place if the key
exists, else append at the end. -/
def mapSet (k : String) (v : α) : List (String × α) → List (String × α)
  | [] => [(k, v)]
  | (k', v') :: rest => if k' = k then (k, v) :: rest else (k', v') :: mapSet k v rest

/-- The keys of an embedded map, in insertion order. -/
def mapKeys (m : List (String × α)) : List String := m.map Prod.fst

/-!
## checkIPAgainstAllowlistWorkflow.ts

Access decision outcome: granted means denyAccess was never called; denied
carries the reason string passed to denyAccess.
-/

inductive AccessDecision
  | granted
  | denied (reason : String)
deriving DecidableEq, Repr

namespace CheckIPAgainstAllowlist

/-- The shipped allowlist configuration constant. -/
def allowList : List String := ["64.227.0.197"]

/-- The shipped developer test-mode flag (true in the source). -/
def testFalsePositive : Bool := true

/-- isValidIpAddress octet test: embedding of one alternation group of the
IPv4 regex 25[0-5] | 2[0-4][0-9] | [01]?[0-9][0-9]? applied to one
dot-separated component. -/
def isOctet (s : String) : Bool :=
  match s.data with
  | [a] => a.isDigit
  | [a, b] => a.isDigit && b.isDigit
  | [a, b, c] =>
    (a = '2' && b = '5' && decide ('0' ≤ c) && decide (c ≤ '5')) ||
    (a = '2' && decide ('0' ≤ b) && decide (b ≤ '4') && c.isDigit) ||
    ((a = '0' || a = '1') && b.isDigit && c.isDigit)
  | _ => false

/-- isValidIpAddress: rejects the sentinels "unknown", "localhost" and
"127.0.0.1", then applies the anchored IPv4 regex, which is equivalent to
splitting on the literal dots into exactly four components each fully matching
the octet pattern (the octet pattern cannot contain a dot). -/
def isValidIpAddress (ip : String) : Bool :=
  if ip == "unknown" || ip == "localhost" || ip == "127.0.0.1" then false
  else
    let parts := jsSplit '.' ip
    parts.length == 4 && parts.all isOctet

/-- The for-loop body of validateAllowList: throws on the first entry failing
isValidIpAddress.  The typeof check cannot fire in the embedding, where every
entry is a string. -/
def checkAllowListIps : List String → Except String Unit
  | [] => .ok ()
  | ip :: rest =>
    if isValidIpAddress ip then checkAllowListIps rest
    else .error ("Invalid IP address in allowlist: " ++ ip)

/-- validateAllowList: throws when the list is empty, then checks each entry.
The Array.isArray check cannot fire in the embedding. -/
def validateAllowList (allowList : List String) : Except String Unit :=
  if allowList.isEmpty then .error "Allowlist must be a non-empty array."
  else checkAllowListIps allowList

/-- The body of handlePostAuth inside the try block, parameterized by the
configuration constants and by event.request.ip (None models an absent
header).  Errors are configuration errors thrown by validateAllowList. -/
def handlePostAuthBody (allowList : List String) (testFalsePositive : Bool)
    (requestIp : Option String) : Except String AccessDecision :=
  match validateAllowList allowList with
  | .error e => .error e
  | .ok _ =>
    let ip0 := match requestIp with
      | none => "unknown"
      | some raw => jsTrim ((jsSplit ',' raw).headD "")
    let ip := if testFalsePositive then "64.227.0.197" else ip0
    if !isValidIpAddress ip then
      .ok (.denied "Access denied: Invalid or private IP address.")
    else if !(allowList.contains ip) then
      .ok (.denied ("Access denied: IP address " ++ ip ++ " is not in the allowlist."))
    else
      .ok .granted

/-- handlePostAuth with explicit configuration: the try/catch converts any
thrown error into handleExceptionError, which calls denyAccess with the
"Access blocked due to an issue:" reason. -/
def handlePostAuthWith (allowList : List String) (testFalsePositive : Bool)
    (requestIp : Option String) : AccessDecision :=
  match handlePostAuthBody allowList testFalsePositive requestIp with
  | .ok d => d
  | .error msg => .denied ("Access blocked due to an issue: " ++ msg)

/-- handlePostAuth as shipped, closing over the module configuration. -/
def handlePostAuth (requestIp : Option String) : AccessDecision :=
  handlePostAuthWith allowList testFalsePositive requestIp

end CheckIPAgainstAllowlist

/-! ## Shared SAML assertion shapes

The three SAML workflows declare identical duck-typed shapes; every field is
optional, mirroring the TypeScript declarations. -/

structure SamlValue where
  value : Option String
deriving DecidableEq, Repr

structure SamlAttribute where
  name : Option String
  values : Option (List SamlValue)
deriving DecidableEq, Repr

structure SamlAttributeStatement where
  attributes : Option (List SamlAttribute)
deriving DecidableEq, Repr

/-- attributeStatements.flatMap((s) => s.attributes ?? []): the flattened
attribute sequence in statement order. -/
def flattenAttrs (stmts : List SamlAttributeStatement) : List SamlAttribute :=
  (stmts.map (fun s => s.attributes.getD [])).flatten

/-!
## syncAttributesOkta.ts, handler SamlAttributesSync

The reduce building the normalized attribute map, the alias resolver over the
attributeSyncConfig table, and the handler.
-/

namespace SamlAttributesSync

/-- attr.name?.toLowerCase().trim(): the normalized attribute name, absent
when the attribute carries no name. -/
def normName (a : SamlAttribute) : Option String :=
  a.name.map (fun n => jsTrim (jsToLower n))

/-- (attr.values ?? []).map((v) => v.value?.trim()).filter(!!v): trimmed
values with absent and empty entries dropped, in source order. -/
def fvals (a : SamlAttribute) : List String :=
  (a.values.getD []).filterMap (fun v =>
    match v.value with
    | none => none
    | some s => if jsTrim s = "" then none else some (jsTrim s))

/-- One step of the reduce building samlAttributesMap: skip attributes with
an absent or empty normalized name, skip attributes whose filtered value list
is empty, otherwise Map.set the filtered values under the normalized name. -/
def mapStep (acc : List (String × List String)) (a : SamlAttribute) :
    List (String × List String) :=
  match normName a with
  | none => acc
  | some name =>
    if name = "" then acc
    else
      let values := fvals a
      if values.length > 0 then mapSet name values acc else acc

/-- The normalized attribute map built by the reduce over the flattened
attribute statements. -/
def samlAttributesMap (stmts : List SamlAttributeStatement) :
    List (String × List String) :=
  (flattenAttrs stmts).foldl mapStep []

/-- Specification predicate: attribute a contributes an entry under key k
(name normalizes to k, name truthy, at least one non-empty trimmed value). -/
def Qualifies (a : SamlAttribute) (k : String) : Prop :=
  normName a = some k ∧ k ≠ "" ∧ fvals a ≠ []

instance (a : SamlAttribute) (k : String) : Decidable (Qualifies a k) := by
  unfold Qualifies; infer_instance

/-- Specification function: the filtered values of the last attribute in the
flattened sequence that qualifies for key k (map-insertion overwrite means
the last writer wins). -/
def lastVals : List SamlAttribute → String → Option (List String)
  | [], _ => none
  | a :: rest, k =>
    match lastVals rest k with
    | some vs => some vs
    | none => if Qualifies a k then some (fvals a) else none

/-- One configured mapping rule: alias names, target Kinde property key, and
the multi-valued flag. -/
structure SyncRule where
  samlNames : List String
  kindeKey : String
  multiValue : Bool
deriving DecidableEq, Repr

/-- The shipped attributeSyncConfig table. -/
def attributeSyncConfig : List SyncRule :=
  [⟨["phone_number", "phone", "mobilephone"], "phone_number", false⟩,
   ⟨["user_type", "usertype"], "user_type", false⟩,
   ⟨["groups", "group"], "groups", true⟩]

/-- The inner alias loop: samlAttributesMap.get(name) for each alias in
order, stopping at the first with a non-empty value list. -/
def findAliasValues (m : List (String × List String)) : List String → Option (List String)
  | [] => none
  | n :: rest =>
    match mapGet n m with
    | some values => if values.length > 0 then some values else findAliasValues m rest
    | none => findAliasValues m rest

/-- Specification helper: what one alias lookup contributes (its value list
when present and non-empty). -/
def aliasHit (m : List (String × List String)) (n : String) : Option (List String) :=
  match mapGet n m with
  | some vs => if vs.length > 0 then some vs else none
  | none => none

/-- The body of the per-rule loop: on a match, write the joined (multi-value)
or first (single-value) string under the rule's Kinde key. -/
def resolveStep (m : List (String × List String)) (acc : List (String × String))
    (config : SyncRule) : List (String × String) :=
  match findAliasValues m config.samlNames with
  | some foundValues =>
    mapSet config.kindeKey
      (if config.multiValue then joinSep "," foundValues else foundValues.headD "") acc
  | none => acc

/-- The propertiesToUpdate object assembled over all configured rules. -/
def resolveProperties (rules : List SyncRule) (m : List (String × List String)) :
    List (String × String) :=
  rules.foldl (resolveStep m) []

/-- handlePostAuth of the SamlAttributesSync workflow, with the event fields
it reads as parameters and the outbound patch as output: some properties when
kindeAPI.patch is called with that batch, none when the handler returns
without a write. -/
def handlePostAuth (protocol : Option String)
    (attributeStatements : Option (List SamlAttributeStatement)) :
    Option (List (String × String)) :=
  match protocol with
  | none => none
  | some p =>
    if p ≠ "saml" then none
    else
      match attributeStatements with
      | none => none
      | some stmts =>
        if stmts.isEmpty then none
        else
          let m := samlAttributesMap stmts
          let propertiesToUpdate := resolveProperties attributeSyncConfig m
          if propertiesToUpdate.isEmpty then none else some propertiesToUpdate

end SamlAttributesSync

/-- Concrete payload: two attribute statements both carrying a "groups"
attribute (the second with different casing), with different value sets. -/
def c3DemoStmts : List SamlAttributeStatement :=
  [⟨some [⟨some "groups", some [⟨some "a1"⟩, ⟨some "a2"⟩]⟩]⟩,
   ⟨some [⟨some "Groups", some [⟨some "b1"⟩, ⟨some "b2"⟩]⟩]⟩]

/-- Concrete payload: a later statement repeats "groups" with values that all
trim to the empty string. -/
def c9DemoStmts : List SamlAttributeStatement :=
  [⟨some [⟨some "groups", some [⟨some "x1"⟩, ⟨some "x2"⟩]⟩]⟩,
   ⟨some [⟨some "groups", some [⟨some "   "⟩, ⟨some ""⟩]⟩]⟩]

/-!
## syncAttributesEntraOAuthWorkflow.ts (mapEntraIdClaimsWorkflow)

OIDC claims form.  A claim value is a string or an array of strings; JS
truthiness makes the empty string falsy and any array truthy.
-/

namespace MapEntraIdClaims

inductive JsValue
  | str (s : String)
  | arr (ls : List String)
deriving DecidableEq, Repr

/-- JS truthiness of a claim value: the empty string is falsy, every array
(even empty) is truthy. -/
def truthy : JsValue → Bool
  | .str s => !(s == "")
  | .arr _ => true

/-- Array.isArray(v) ? v.join(", ") : String(v). -/
def jsValueToString : JsValue → String
  | .str s => s
  | .arr ls => joinSep ", " ls

/-- The claimMappings table, in object-literal insertion order. -/
def claimMappings : List (String × String) :=
  [("given_name", "kp_usr_first_name"),
   ("family_name", "kp_usr_last_name"),
   ("email", "kp_usr_email"),
   ("preferred_username", "usr_username")]

/-- The strict provider-name allowlist. -/
def allowedProviders : List String :=
  ["microsoft", "entra", "azure", "azure_ad", "azuread"]

/-- The claim-to-property mapping loop plus the groups capture: the
propertiesToUpdate object before the timestamp is added. -/
def buildEntraProps (claims : List (String × JsValue)) : List (String × String) :=
  let base := claimMappings.foldl (fun acc cm =>
    match mapGet cm.1 claims with
    | some claimValue =>
      if truthy claimValue then mapSet cm.2 (jsValueToString claimValue) acc else acc
    | none => acc) []
  match mapGet "groups" claims with
  | some (JsValue.arr ls) => mapSet "entra_groups" (joinSep ", " ls) base
  | _ => base

/-- mapEntraIdClaimsWorkflow.  Event fields are parameters; now is the
timestamp string produced by new Date().toISOString(); createApi and
patchResult are the outcomes of createKindeAPI and kindeAPI.patch.  Output:
ok none when the handler returns without a write, ok (some props) when the
patch with that property batch succeeded, error when the handler throws
(missing user id, api-client failure, or the re-thrown patch failure). -/
def mapEntraIdClaimsWorkflow (protocol : Option String) (rawProvider : String)
    (userId : Option String) (claims : List (String × JsValue)) (now : String)
    (createApi : Except String Unit) (patchResult : Except String Unit) :
    Except String (Option (List (String × String))) :=
  if (protocol.getD "") ≠ "oauth2" then .ok none
  else
    let providerName := jsToLower (jsTrim rawProvider)
    if !(allowedProviders.contains providerName) then .ok none
    else
      match userId with
      | none => .error "User ID is required for claims mapping"
      | some _uid =>
        let propertiesToUpdate := buildEntraProps claims
        if propertiesToUpdate.isEmpty then .ok none
        else
          let withTs := mapSet "entra_last_sync" now propertiesToUpdate
          match createApi with
          | .error e => .error e
          | .ok _ =>
            match patchResult with
            | .error e => .error e
            | .ok _ => .ok (some withTs)

end MapEntraIdClaims

/-!
## createOrgOnSignupWorkflow.ts (createOrgOnSignUp)

The three management-API calls inside the try block are parameters; the catch
block logs and does NOT re-throw (the throw is commented out in the source),
so the handler always completes normally.
-/

namespace CreateOrgOnSignUp

def createOrgOnSignUp (isNewKindeUser : Bool)
    (getBusiness : Except String String)
    (postOrganization : String → Except String String)
    (patchProperties : String → Except String Unit) : Except String Unit :=
  if isNewKindeUser then
    match getBusiness with
    | .error _ => .ok ()
    | .ok businessName =>
      match postOrganization businessName with
      | .error _ => .ok ()
      | .ok orgCode =>
        match patchProperties orgCode with
        | .error _ => .ok ()
        | .ok _ => .ok ()
  else .ok ()

end CreateOrgOnSignUp

/-!
## addBillingDetailsToTokensB2C.ts (Workflow)

The whole body sits in a try block whose catch logs and re-throws, so errors
propagate unchanged.  createKindeAPI runs before the user-id check; a missing
user id logs a warning and returns normally.  The two billing reads run under
Promise.all: either failure rejects the combined step.  Output: ok (some
claim) when the billingDetails claim is set on both tokens, ok none when the
handler returns without setting claims.
-/

namespace AddBillingDetailsToTokensB2C

structure BillingClaim where
  customer_id : String
  entitlements : List String
  agreements : List String
deriving DecidableEq, Repr

def Workflow (createApi : Except String Unit) (userId : Option String)
    (getUserCustomerId : Except String (Option String))
    (getEntitlements : Except String (List String))
    (getAgreements : Except String (List String)) :
    Except String (Option BillingClaim) :=
  match createApi with
  | .error e => .error e
  | .ok _ =>
    match userId with
    | none => .ok none
    | some _uid =>
      match getUserCustomerId with
      | .error e => .error e
      | .ok customerId? =>
        match customerId? with
        | none => .ok none
        | some customerId =>
          match getEntitlements with
          | .error e => .error e
          | .ok entitlements =>
            match getAgreements with
            | .error e => .error e
            | .ok agreements =>
              .ok (some ⟨customerId, entitlements, agreements⟩)

end AddBillingDetailsToTokensB2C

/-!
## syncAttributesOkta.ts, handler OktaAttributesSync (find-based variant)

Gated on the OKTA_CONNECTION_ID environment variable.  Output: the patched
property batch, or none when the handler returns without a write.
-/

namespace OktaAttributesSync

/-- The find? predicate of findAttr: the normalized attribute name equals one
of the wanted names (lower-cased); an absent name normalizes via "". -/
def oktaMatches (names : List String) (a : SamlAttribute) : Bool :=
  names.any (fun want => jsTrim (jsToLower (a.name.getD "")) == jsToLower want)

/-- attrs.find?: the FIRST attribute in flattened order matching one of the
names. -/
def findAttr (attrs : List SamlAttribute) (names : List String) : Option SamlAttribute :=
  attrs.find? (oktaMatches names)

/-- (a?.values?.[0]?.value ?? "").toString().trim() || null: take the first
listed raw value (before any filtering), trim it, and null out the empty
string. -/
def getFirstString (a : Option SamlAttribute) : Option String :=
  let raw : String := match a with
    | none => ""
    | some attr =>
      match attr.values with
      | none => ""
      | some [] => ""
      | some (v :: _) => v.value.getD ""
  if jsTrim raw = "" then none else some (jsTrim raw)

/-- (a?.values ?? []).map((v) => (v.value ?? "").toString().trim())
.filter(Boolean). -/
def getAllStrings (a : Option SamlAttribute) : List String :=
  let vs : List SamlValue := match a with
    | none => []
    | some attr => attr.values.getD []
  (vs.map (fun v => jsTrim (v.value.getD ""))).filter (fun s => !(s == ""))

/-- handlePostAuth of the OktaAttributesSync workflow. -/
def handlePostAuth (connectionId : String) (oktaConnectionId : Option String)
    (attributeStatements : Option (List SamlAttributeStatement)) :
    Option (List (String × String)) :=
  match oktaConnectionId with
  | none => none
  | some cid =>
    if cid = "" then none
    else if connectionId ≠ cid then none
    else
      match attributeStatements with
      | none => none
      | some stmts =>
        if stmts.isEmpty then none
        else
          let attrs := flattenAttrs stmts
          let phoneValue := getFirstString (findAttr attrs ["phone_number"])
          let userTypeValue := getFirstString (findAttr attrs ["user_type"])
          let groupsArray := getAllStrings (findAttr attrs ["groups"])
          let groupsValue :=
            if groupsArray.isEmpty then none else some (joinSep "," groupsArray)
          if phoneValue.isNone && userTypeValue.isNone && groupsValue.isNone then none
          else
            some ((match phoneValue with
                    | some v => [("phone_number", v)]
                    | none => []) ++
                  (match userTypeValue with
                    | some v => [("user_type", v)]
                    | none => []) ++
                  (match groupsValue with
                    | some v => [("groups", v)]
                    | none => []))

end OktaAttributesSync

/-!
## syncUserPhoneGoogleWorkspace.ts (GoogleWorkspacePhoneSync)

Gated on the GOOGLE_WORKSPACE_CONNECTION_ID environment variable.  Output:
the phone value written with kindeAPI.put, or none when no write happens.
-/

namespace GoogleWorkspacePhoneSync

def handlePostAuth (connectionId : String) (googleWorkspaceConnectionId : Option String)
    (attributeStatements : Option (List SamlAttributeStatement)) : Option String :=
  match googleWorkspaceConnectionId with
  | none => none
  | some cid =>
    if cid = "" then none
    else if connectionId ≠ cid then none
    else
      match attributeStatements with
      | none => none
      | some stmts =>
        if stmts.isEmpty then none
        else
          let phoneAttr := (flattenAttrs stmts).find? (fun a =>
            match a.name with
            | none => false
            | some n => jsTrim (jsToLower n) == "phone")
          match phoneAttr with
          | none => none
          | some attr =>
            match attr.values with
            | none => none
            | some [] => none
            | some (v :: _) =>
              match v.value with
              | none => none
              | some s => if jsTrim s = "" then none else some (jsTrim s)

end GoogleWorkspacePhoneSync

/-! ## Theorems -/

namespace CheckIPAgainstAllowlist

lemma checkAllowListIps_invalid {l : List String}
    (h : ∃ ip ∈ l, isValidIpAddress ip = false) :
    ∃ msg, checkAllowListIps l = Except.error msg := by
  induction l with
  | nil =>
    obtain ⟨ip, hm, _⟩ := h
    exact absurd hm (List.not_mem_nil ip)
  | cons x xs ih =>
    cases hx : isValidIpAddress x with
    | true =>
      obtain ⟨ip, hm, hbad⟩ := h
      rcases List.mem_cons.mp hm with rfl | hmem
      · rw [hx] at hbad; cases hbad
      · obtain ⟨msg, hmsg⟩ := ih ⟨ip, hmem, hbad⟩
        exact ⟨msg, by simpa [checkAllowListIps, hx] using hmsg⟩
    | false =>
      exact ⟨"Invalid IP address in allowlist: " ++ x, by simp [checkAllowListIps, hx]⟩

lemma validateAllowList_error {aL : List String}
    (h : aL = [] ∨ ∃ ip ∈ aL, isValidIpAddress ip = false) :
    ∃ msg, validateAllowList aL = Except.error msg := by
  rcases h with rfl | hex
  · exact ⟨_, rfl⟩
  · obtain ⟨ip, hm, hbad⟩ := hex
    have hne : aL.isEmpty = false := by
      cases aL with
      | nil => exact absurd hm (List.not_mem_nil ip)
      | cons y ys => rfl
    obtain ⟨msg, hmsg⟩ := checkAllowListIps_invalid ⟨ip, hm, hbad⟩
    exact ⟨msg, by simp [validateAllowList, hne, hmsg]⟩

lemma handlePostAuthWith_config_error {aL : List String} {msg : String}
    (t : Bool) (rip : Option String) (h : validateAllowList aL = Except.error msg) :
    handlePostAuthWith aL t rip
      = AccessDecision.denied ("Access blocked due to an issue: " ++ msg) := by
  simp [handlePostAuthWith, handlePostAuthBody, h]

end CheckIPAgainstAllowlist

open CheckIPAgainstAllowlist in
/-- Claim C1, counterexample: with the shipped configuration (allowlist
["64.227.0.197"] and testFalsePositive = true), an authentication event whose
raw client-IP header is "8.8.8.8" is GRANTED, because the test-mode override
replaces the extracted IP with the allowed address before any check; denyAccess
is never called, contradicting the claimed denial. -/
theorem c1_counterexample_shipped_config_grants :
    handlePostAuth (some "8.8.8.8") = AccessDecision.granted := by decide

open CheckIPAgainstAllowlist in
/-- Claim C1, amended: with allowlist ["64.227.0.197"] and the developer
test-mode override disabled (testFalsePositive = false), an event whose raw
client-IP header is "8.8.8.8" results in denyAccess with the reason citing
that the IP is not in the allowlist. -/
theorem c1_amended_deny_without_test_override :
    handlePostAuthWith ["64.227.0.197"] false (some "8.8.8.8")
      = AccessDecision.denied "Access denied: IP address 8.8.8.8 is not in the allowlist." := by
  decide

open CheckIPAgainstAllowlist in
/-- Claim C2: the IP-allowlist handler is fail-closed.  (0) Any exception
thrown during the decision body is caught by the top-level handler and
converted into denyAccess, never propagated.  (1) Whenever the
configured allowlist is empty or contains an entry failing IPv4 syntax
validation, validateAllowList throws a configuration error, which the
top-level try/catch converts into denyAccess with a configuration-error
reason, for every test-mode flag and request header.  (2) In particular the
allowlist ["999.1.1.1"] always yields that denial.  (3) Every invocation
terminates in either a grant or a deny: no other outcome exists. -/
theorem c2_ip_handler_fail_closed :
    (∀ (aL : List String) (t : Bool) (rip : Option String) (msg : String),
      handlePostAuthBody aL t rip = Except.error msg →
      handlePostAuthWith aL t rip
        = AccessDecision.denied ("Access blocked due to an issue: " ++ msg))
    ∧ (∀ aL : List String, (aL = [] ∨ ∃ ip ∈ aL, isValidIpAddress ip = false) →
      ∃ msg, validateAllowList aL = Except.error msg ∧
        ∀ (t : Bool) (rip : Option String),
          handlePostAuthWith aL t rip
            = AccessDecision.denied ("Access blocked due to an issue: " ++ msg))
    ∧ (∀ (t : Bool) (rip : Option String),
        handlePostAuthWith ["999.1.1.1"] t rip
          = AccessDecision.denied
              "Access blocked due to an issue: Invalid IP address in allowlist: 999.1.1.1")
    ∧ (∀ (aL : List String) (t : Bool) (rip : Option String),
        handlePostAuthWith aL t rip = AccessDecision.granted ∨
          ∃ r, handlePostAuthWith aL t rip = AccessDecision.denied r) := by
  refine ⟨?_, ?_, ?_, ?_⟩
  · intro aL t rip msg h
    simp [handlePostAuthWith, h]
  · intro aL h
    obtain ⟨msg, hmsg⟩ := validateAllowList_error h
    exact ⟨msg, hmsg, fun t rip => handlePostAuthWith_config_error t rip hmsg⟩
  · intro t rip
    exact handlePostAuthWith_config_error t rip rfl
  · intro aL t rip
    cases h : handlePostAuthWith aL t rip with
    | granted => exact Or.inl rfl
    | denied r => exact Or.inr ⟨r, rfl⟩

open CheckIPAgainstAllowlist in
/-- Witness for C2: the fail-closed behavior at two concrete configurations,
obtained by applying the theorem with its hypothesis discharged concretely. -/
theorem c2_ip_handler_fail_closed_witness :
    handlePostAuthWith [] true none
      = AccessDecision.denied "Access blocked due to an issue: Allowlist must be a non-empty array."
    ∧ handlePostAuthWith ["999.1.1.1"] false (some "8.8.8.8")
      = AccessDecision.denied
          "Access blocked due to an issue: Invalid IP address in allowlist: 999.1.1.1" := by
  constructor
  · obtain ⟨msg, h1, h2⟩ := c2_ip_handler_fail_closed.2.1 [] (Or.inl rfl)
    have h0 : validateAllowList ([] : List String)
        = Except.error "Allowlist must be a non-empty array." := rfl
    rw [h0] at h1
    injection h1 with hmsg
    rw [← hmsg] at h2
    exact h2 true none
  · exact c2_ip_handler_fail_closed.2.2.1 false (some "8.8.8.8")

/-! ### Association-list map lemmas (JS Map semantics) -/

lemma mapGet_mapSet {α : Type} (k k' : String) (v : α) (m : List (String × α)) :
    mapGet k' (mapSet k v m) = if k' = k then some v else mapGet k' m := by
  induction m with
  | nil => by_cases h : k' = k <;> simp [mapSet, mapGet, h]
  | cons p rest ih =>
    obtain ⟨k0, v0⟩ := p
    by_cases h0 : k0 = k
    · subst h0
      by_cases h1 : k' = k0 <;> simp [mapSet, mapGet, h1]
    · by_cases h1 : k' = k0
      · subst h1
        have h2 : ¬ k' = k := h0
        simp [mapSet, mapGet, h0, h2]
      · simp [mapSet, mapGet, h0, h1, ih]

@[simp] lemma mapKeys_nil {α : Type} : mapKeys ([] : List (String × α)) = [] := rfl

@[simp] lemma mapKeys_cons {α : Type} (p : String × α) (rest : List (String × α)) :
    mapKeys (p :: rest) = p.1 :: mapKeys rest := rfl

lemma mapGet_eq_none {α : Type} {k : String} {m : List (String × α)} :
    mapGet k m = none ↔ k ∉ mapKeys m := by
  induction m with
  | nil => simp [mapGet]
  | cons p rest ih =>
    obtain ⟨k0, v0⟩ := p
    by_cases h : k = k0 <;> simp [mapGet, h, ih]

lemma mapKeys_mapSet {α : Type} (k : String) (v : α) (m : List (String × α)) :
    mapKeys (mapSet k v m)
      = if k ∈ mapKeys m then mapKeys m else mapKeys m ++ [k] := by
  induction m with
  | nil => simp [mapSet]
  | cons p rest ih =>
    obtain ⟨k0, v0⟩ := p
    by_cases h : k0 = k
    · subst h
      simp [mapSet]
    · have h2 : ¬ k = k0 := fun e => h e.symm
      simp only [mapSet, if_neg h, mapKeys_cons]
      rw [ih]
      by_cases h3 : k ∈ mapKeys rest
      · simp [h2, h3]
      · simp [h2, h3]

lemma nodup_mapKeys_mapSet {α : Type} {k : String} {v : α} {m : List (String × α)}
    (h : (mapKeys m).Nodup) : (mapKeys (mapSet k v m)).Nodup := by
  rw [mapKeys_mapSet]
  by_cases h3 : k ∈ mapKeys m
  · simpa [h3] using h
  · simp [h3, List.nodup_append, h, List.disjoint_singleton]

namespace SamlAttributesSync

/-! ### Normalized-map lemmas -/

lemma mapStep_qualifies {acc : List (String × List String)} {a : SamlAttribute}
    {k : String} (h : Qualifies a k) :
    mapGet k (mapStep acc a) = some (fvals a) := by
  obtain ⟨h1, h2, h3⟩ := h
  have hl : 0 < (fvals a).length := List.length_pos.mpr h3
  unfold mapStep
  rw [h1]
  simp [h2, hl, mapGet_mapSet]

lemma mapStep_not_qualifies {acc : List (String × List String)} {a : SamlAttribute}
    {k : String} (h : ¬ Qualifies a k) :
    mapGet k (mapStep acc a) = mapGet k acc := by
  unfold mapStep
  cases hn : normName a with
  | none => rfl
  | some name =>
    by_cases hk : name = ""
    · simp [hk]
    · by_cases hv : 0 < (fvals a).length
      · have hkn : ¬ k = name := by
          intro e
          exact h ⟨by rw [hn, e], by rw [e]; exact hk, List.length_pos.mp hv⟩
        simp [hk, hv, mapGet_mapSet, hkn]
      · simp [hk, hv]

lemma mapGet_foldl_mapStep (attrs : List SamlAttribute) : ∀ (acc) (k : String),
    mapGet k (attrs.foldl mapStep acc)
      = match lastVals attrs k with
        | some vs => some vs
        | none => mapGet k acc := by
  induction attrs with
  | nil => intro acc k; simp [lastVals]
  | cons a rest ih =>
    intro acc k
    simp only [List.foldl_cons]
    rw [ih]
    by_cases hq : Qualifies a k
    · cases hl : lastVals rest k with
      | some vs => simp [lastVals, hl]
      | none => simp [lastVals, hl, hq, mapStep_qualifies hq]
    · cases hl : lastVals rest k with
      | some vs => simp [lastVals, hl]
      | none => simp [lastVals, hl, hq, mapStep_not_qualifies hq]

lemma samlAttributesMap_lookup (stmts : List SamlAttributeStatement) (k : String) :
    mapGet k (samlAttributesMap stmts) = lastVals (flattenAttrs stmts) k := by
  rw [samlAttributesMap, mapGet_foldl_mapStep]
  cases lastVals (flattenAttrs stmts) k <;> rfl

lemma nodup_mapStep {acc : List (String × List String)} {a : SamlAttribute}
    (h : (mapKeys acc).Nodup) : (mapKeys (mapStep acc a)).Nodup := by
  unfold mapStep
  cases normName a with
  | none => exact h
  | some name =>
    by_cases hk : name = ""
    · simpa [hk] using h
    · by_cases hv : 0 < (fvals a).length
      · simpa [hk, hv] using nodup_mapKeys_mapSet h
      · simpa [hk, hv] using h

lemma nodup_mapKeys_foldl (attrs : List SamlAttribute) :
    ∀ acc, (mapKeys acc).Nodup → (mapKeys (attrs.foldl mapStep acc)).Nodup := by
  induction attrs with
  | nil => intro acc h; exact h
  | cons a rest ih =>
    intro acc h
    simpa using ih (mapStep acc a) (nodup_mapStep h)

lemma lastVals_some {attrs : List SamlAttribute} {k : String} {vs : List String}
    (h : lastVals attrs k = some vs) :
    ∃ a ∈ attrs, Qualifies a k ∧ vs = fvals a := by
  induction attrs with
  | nil => simp [lastVals] at h
  | cons a rest ih =>
    rw [lastVals] at h
    cases hl : lastVals rest k with
    | some vs2 =>
      rw [hl] at h
      injection h with h
      obtain ⟨b, hb, hq, he⟩ := ih (by rw [hl, h])
      exact ⟨b, List.mem_cons_of_mem a hb, hq, he⟩
    | none =>
      rw [hl] at h
      by_cases hq : Qualifies a k
      · rw [if_pos hq] at h
        injection h with h
        exact ⟨a, List.mem_cons_self a rest, hq, h.symm⟩
      · rw [if_neg hq] at h
        cases h

lemma fvals_mem {a : SamlAttribute} {v : String} (h : v ∈ fvals a) :
    v ≠ "" ∧ ∃ raw, v = jsTrim raw := by
  unfold fvals at h
  obtain ⟨sv, _hsv, hf⟩ := List.mem_filterMap.mp h
  cases hv : sv.value with
  | none => rw [hv] at hf; simp at hf
  | some s =>
    rw [hv] at hf
    by_cases ht : jsTrim s = ""
    · simp [ht] at hf
    · simp [ht] at hf
      exact ⟨by rw [← hf]; exact ht, ⟨s, hf.symm⟩⟩

end SamlAttributesSync

open SamlAttributesSync in
/-- Claim C3: invariants of the normalized SAML attribute map.  (1) Keys are
unique.  (2) Lookup of any key equals the filtered trimmed values of the LAST
attribute, in flattened statement order, whose truthy normalized (lower-cased,
trimmed) name is that key and whose filtered value list is non-empty: Map.set
overwrite semantics, so a name appearing in several statements keeps only the
later statement's values, never a union.  (3) Every stored value list is
non-empty, contains only non-empty results of trimming, in source order (it is
exactly fvals of the winning attribute). -/
theorem c3_saml_normalized_map_invariants :
    ∀ stmts : List SamlAttributeStatement,
      (mapKeys (samlAttributesMap stmts)).Nodup
      ∧ (∀ k, mapGet k (samlAttributesMap stmts) = lastVals (flattenAttrs stmts) k)
      ∧ (∀ k vs, mapGet k (samlAttributesMap stmts) = some vs →
          vs ≠ [] ∧ (∀ v ∈ vs, v ≠ "" ∧ ∃ raw, v = jsTrim raw)
          ∧ ∃ a ∈ flattenAttrs stmts, Qualifies a k ∧ vs = fvals a) := by
  intro stmts
  refine ⟨nodup_mapKeys_foldl (flattenAttrs stmts) [] (by simp [mapKeys]),
    samlAttributesMap_lookup stmts, ?_⟩
  intro k vs h
  rw [samlAttributesMap_lookup] at h
  obtain ⟨a, ha, hq, he⟩ := lastVals_some h
  refine ⟨by rw [he]; exact hq.2.2, ?_, ⟨a, ha, hq, he⟩⟩
  intro v hv
  exact fvals_mem (he ▸ hv)

/-- Witness for C3 at the concrete two-statement "groups" payload: the lookup
characterization instantiated there, and the later statement's values winning. -/
theorem c3_saml_normalized_map_invariants_witness :
    mapGet "groups" (SamlAttributesSync.samlAttributesMap c3DemoStmts)
      = SamlAttributesSync.lastVals (flattenAttrs c3DemoStmts) "groups"
    ∧ SamlAttributesSync.lastVals (flattenAttrs c3DemoStmts) "groups" = some ["b1", "b2"] :=
  ⟨(c3_saml_normalized_map_invariants c3DemoStmts).2.1 "groups", by decide⟩

open SamlAttributesSync in
/-- Claim C9: an attribute whose values all trim to empty (or that has no
truthy name) is skipped entirely by the normalization reduce: it neither
creates nor overwrites a map entry, so a later statement repeating a name
with only empty values leaves the earlier non-empty values in place. -/
theorem c9_all_empty_attribute_skipped :
    (∀ (acc : List (String × List String)) (a : SamlAttribute),
      fvals a = [] → mapStep acc a = acc)
    ∧ (∀ (pre post : List SamlAttribute) (a : SamlAttribute), fvals a = [] →
        (pre ++ a :: post).foldl mapStep []
          = (pre ++ post).foldl mapStep [])
    ∧ mapGet "groups" (samlAttributesMap c9DemoStmts) = some ["x1", "x2"] := by
  have hstep : ∀ (acc : List (String × List String)) (a : SamlAttribute),
      fvals a = [] → mapStep acc a = acc := by
    intro acc a h
    unfold mapStep
    cases normName a with
    | none => rfl
    | some name =>
      by_cases hk : name = ""
      · simp [hk]
      · simp [hk, h]
  refine ⟨hstep, ?_, by decide⟩
  intro pre post a h
  rw [List.foldl_append, List.foldl_append, List.foldl_cons, hstep _ a h]

/-- Witness for C9: the skip equation applied to a concrete whitespace-only
attribute. -/
theorem c9_all_empty_attribute_skipped_witness :
    SamlAttributesSync.mapStep [] ⟨some "groups", some [⟨some "   "⟩]⟩ = [] :=
  c9_all_empty_attribute_skipped.1 [] ⟨some "groups", some [⟨some "   "⟩]⟩ (by decide)

open SamlAttributesSync in
/-- Claim C4: alias resolution.  (1) Aliases are consulted in declared order
and the first alias whose map lookup yields a non-empty value list wins, even
when later aliases also have data.  (2) On a match, the rule writes, under its
Kinde key, the values joined with the configured delimiter when multi-valued,
and only the first value otherwise.  (3) When no alias matches, the rule
writes nothing at all. -/
theorem c4_alias_resolution_first_match_wins :
    (∀ (m : List (String × List String)) (pre : List String) (n : String)
       (post : List String) (vs : List String),
      (∀ n2 ∈ pre, aliasHit m n2 = none) → aliasHit m n = some vs →
      findAliasValues m (pre ++ n :: post) = some vs)
    ∧ (∀ (m : List (String × List String)) (acc : List (String × String))
         (rule : SyncRule) (vs : List String),
        findAliasValues m rule.samlNames = some vs →
        mapGet rule.kindeKey (resolveStep m acc rule)
          = some (if rule.multiValue then joinSep "," vs else vs.headD ""))
    ∧ (∀ (m : List (String × List String)) (acc : List (String × String))
         (rule : SyncRule),
        findAliasValues m rule.samlNames = none → resolveStep m acc rule = acc) := by
  refine ⟨?_, ?_, ?_⟩
  · intro m pre n post vs hpre hn
    induction pre with
    | nil =>
      rw [List.nil_append]
      unfold aliasHit at hn
      unfold findAliasValues
      cases hm : mapGet n m with
      | none => rw [hm] at hn; simp at hn
      | some values =>
        rw [hm] at hn
        by_cases hl : values.length > 0
        · simp only [hl, if_true] at hn ⊢
          exact hn
        · simp [hl] at hn
    | cons p pres ih =>
      have hp : aliasHit m p = none := hpre p (List.mem_cons_self p pres)
      have hrec : findAliasValues m (pres ++ n :: post) = some vs :=
        ih (fun n2 h2 => hpre n2 (List.mem_cons_of_mem p h2))
      rw [List.cons_append]
      unfold findAliasValues
      unfold aliasHit at hp
      cases hm : mapGet p m with
      | none =>
        exact hrec
      | some values =>
        rw [hm] at hp
        by_cases hl : values.length > 0
        · simp [hl] at hp
        · simp only [hl, if_false] at hp ⊢
          exact hrec
  · intro m acc rule vs h
    unfold resolveStep
    rw [h, mapGet_mapSet]
    simp
  · intro m acc rule h
    unfold resolveStep
    rw [h]

/-- Witness for C4: a concrete map where both the "phone" and "mobilephone"
aliases of the phone rule have data; the earlier alias wins. -/
theorem c4_alias_resolution_first_match_wins_witness :
    SamlAttributesSync.findAliasValues
        [("phone", ["111 222"]), ("mobilephone", ["999"])]
        (["phone_number"] ++ "phone" :: ["mobilephone"])
      = some ["111 222"]
    ∧ mapGet "phone_number"
        (SamlAttributesSync.resolveStep
          [("phone", ["111 222"]), ("mobilephone", ["999"])] []
          ⟨["phone_number", "phone", "mobilephone"], "phone_number", false⟩)
      = some (if (false : Bool) then joinSep "," ["111 222"] else ["111 222"].headD "") := by
  constructor
  · exact c4_alias_resolution_first_match_wins.1
      [("phone", ["111 222"]), ("mobilephone", ["999"])]
      ["phone_number"] "phone" ["mobilephone"] ["111 222"]
      (by decide) (by decide)
  · exact c4_alias_resolution_first_match_wins.2.1
      [("phone", ["111 222"]), ("mobilephone", ["999"])] []
      ⟨["phone_number", "phone", "mobilephone"], "phone_number", false⟩
      ["111 222"] (by decide)

/-- Claim C5: an empty resolved property batch means no outbound write.  (1)
In the Entra claims workflow, whenever the claim-derived batch is empty the
handler either returns with no patch (in particular no timestamp-only update)
or throws the missing-user-id error before reading claims; no patch is issued
either way.  (2) In particular an empty claims object on the eligible path
yields no write for every timestamp and every collaborator outcome.  (3) In
the SamlAttributesSync handler, an empty resolved batch likewise yields no
patch for every protocol value. -/
theorem c5_empty_batch_no_outbound_write :
    (∀ (protocol : Option String) (rawProvider : String) (userId : Option String)
       (claims : List (String × MapEntraIdClaims.JsValue)) (now : String)
       (createApi patchResult : Except String Unit),
      MapEntraIdClaims.buildEntraProps claims = [] →
      MapEntraIdClaims.mapEntraIdClaimsWorkflow protocol rawProvider userId claims now
          createApi patchResult = .ok none
        ∨ MapEntraIdClaims.mapEntraIdClaimsWorkflow protocol rawProvider userId claims now
            createApi patchResult = .error "User ID is required for claims mapping")
    ∧ (∀ (now : String) (createApi patchResult : Except String Unit),
        MapEntraIdClaims.mapEntraIdClaimsWorkflow (some "oauth2") "microsoft"
          (some "user_123") [] now createApi patchResult = .ok none)
    ∧ (∀ (protocol : Option String) (stmts : List SamlAttributeStatement),
        SamlAttributesSync.resolveProperties SamlAttributesSync.attributeSyncConfig
            (SamlAttributesSync.samlAttributesMap stmts) = [] →
        SamlAttributesSync.handlePostAuth protocol (some stmts) = none) := by
  refine ⟨?_, ?_, ?_⟩
  · intro protocol rawProvider userId claims now capi pr h
    by_cases h1 : (protocol.getD "") = "oauth2"
    · by_cases h2 : MapEntraIdClaims.allowedProviders.contains
          (jsToLower (jsTrim rawProvider)) = true
      · have h2m : jsToLower (jsTrim rawProvider) ∈ MapEntraIdClaims.allowedProviders := by
          simpa using h2
        cases userId with
        | none =>
          right
          simp [MapEntraIdClaims.mapEntraIdClaimsWorkflow, h1, h2m]
        | some uid =>
          left
          simp [MapEntraIdClaims.mapEntraIdClaimsWorkflow, h1, h2m, h]
      · left
        have h2m : jsToLower (jsTrim rawProvider) ∉ MapEntraIdClaims.allowedProviders := by
          simpa using h2
        simp [MapEntraIdClaims.mapEntraIdClaimsWorkflow, h1, h2m]
    · left
      simp [MapEntraIdClaims.mapEntraIdClaimsWorkflow, h1]
  · intro now capi pr
    rfl
  · intro protocol stmts h
    cases protocol with
    | none => rfl
    | some p =>
      by_cases hp : p = "saml"
      · subst hp
        simp [SamlAttributesSync.handlePostAuth, h]
      · simp [SamlAttributesSync.handlePostAuth, hp]

/-- Witness for C5: a claims object whose only claim is falsy (empty string)
resolves to an empty batch, and the handler issues no write. -/
theorem c5_empty_batch_no_outbound_write_witness :
    MapEntraIdClaims.mapEntraIdClaimsWorkflow (some "oauth2") "azure" (some "u1")
      [("email", MapEntraIdClaims.JsValue.str "")] "t0" (.ok ()) (.ok ()) = .ok none := by
  rcases c5_empty_batch_no_outbound_write.1 (some "oauth2") "azure" (some "u1")
      [("email", MapEntraIdClaims.JsValue.str "")] "t0" (.ok ()) (.ok ()) (by decide)
    with h | h
  · exact h
  · have hok : MapEntraIdClaims.mapEntraIdClaimsWorkflow (some "oauth2") "azure" (some "u1")
        [("email", MapEntraIdClaims.JsValue.str "")] "t0" (.ok ()) (.ok ()) = .ok none := rfl
    rw [hok] at h
    exact Except.noConfusion h

/-- Claim C6, counterexample: the billing-details token workflow has no
eligibility gate, and with the user identifier absent it logs a warning and
RETURNS NORMALLY (ok, no claims set) instead of raising an error to the
host. -/
theorem c6_counterexample_billing_missing_user_returns_ok :
    AddBillingDetailsToTokensB2C.Workflow (.ok ()) none (.ok none) (.ok []) (.ok [])
      = .ok none := rfl

/-- Claim C6, amended: the Entra claims-mapping handler treats a missing user
identifier after its gate as fatal and raises an error to the host; the
billing-details token workflow instead warns and returns normally without
setting any claim, for every collaborator outcome. -/
theorem c6_amended_missing_user_id_behavior :
    (∀ (rawProvider : String) (claims : List (String × MapEntraIdClaims.JsValue))
       (now : String) (createApi patchResult : Except String Unit),
      MapEntraIdClaims.allowedProviders.contains (jsToLower (jsTrim rawProvider)) = true →
      MapEntraIdClaims.mapEntraIdClaimsWorkflow (some "oauth2") rawProvider none claims now
          createApi patchResult = .error "User ID is required for claims mapping")
    ∧ (∀ (getUserCustomerId : Except String (Option String))
         (getEntitlements getAgreements : Except String (List String)),
        AddBillingDetailsToTokensB2C.Workflow (.ok ()) none getUserCustomerId
          getEntitlements getAgreements = .ok none) := by
  constructor
  · intro rawProvider claims now capi pr h2
    have h2m : jsToLower (jsTrim rawProvider) ∈ MapEntraIdClaims.allowedProviders := by
      simpa using h2
    simp [MapEntraIdClaims.mapEntraIdClaimsWorkflow, h2m]
  · intro gU gE gA
    rfl

/-- Witness for C6 amended: concrete instantiation at the "microsoft"
provider. -/
theorem c6_amended_missing_user_id_behavior_witness :
    MapEntraIdClaims.mapEntraIdClaimsWorkflow (some "oauth2") "microsoft" none [] "t0"
      (.ok ()) (.ok ()) = .error "User ID is required for claims mapping" :=
  c6_amended_missing_user_id_behavior.1 "microsoft" [] "t0" (.ok ()) (.ok ()) (by decide)

/-- Claim C7, counterexample: createOrgOnSignUp catches a management-API
failure, logs it, and completes normally (the re-throw is commented out in
the source), so this handler DOES swallow a downstream call failure. -/
theorem c7_counterexample_createorg_swallows_api_failure :
    CreateOrgOnSignUp.createOrgOnSignUp true (.error "management API failure")
      (fun _ => .ok "org_1") (fun _ => .ok ()) = .ok () := rfl

/-- Claim C7, amended: downstream management-API failures are logged and
re-raised in the attribute-sync and token workflows — the Entra handler
re-throws a patch failure, and the billing workflow propagates a failed
billing read — but createOrgOnSignUp logs and completes normally for every
outcome of its API calls. -/
theorem c7_amended_downstream_failure_policies :
    (∀ (rawProvider uid : String) (claims : List (String × MapEntraIdClaims.JsValue))
       (now e : String),
      MapEntraIdClaims.allowedProviders.contains (jsToLower (jsTrim rawProvider)) = true →
      MapEntraIdClaims.buildEntraProps claims ≠ [] →
      MapEntraIdClaims.mapEntraIdClaimsWorkflow (some "oauth2") rawProvider (some uid)
        claims now (.ok ()) (.error e) = .error e)
    ∧ (∀ (uid cid : String) (getAgreements : Except String (List String)) (e : String),
        AddBillingDetailsToTokensB2C.Workflow (.ok ()) (some uid) (.ok (some cid))
          (.error e) getAgreements = .error e)
    ∧ (∀ (isNewKindeUser : Bool) (getBusiness : Except String String)
         (postOrganization : String → Except String String)
         (patchProperties : String → Except String Unit),
        CreateOrgOnSignUp.createOrgOnSignUp isNewKindeUser getBusiness
          postOrganization patchProperties = .ok ()) := by
  refine ⟨?_, ?_, ?_⟩
  · intro rawProvider uid claims now e h2 hne
    have hE : (MapEntraIdClaims.buildEntraProps claims).isEmpty = false := by
      cases hc : MapEntraIdClaims.buildEntraProps claims with
      | nil => exact absurd hc hne
      | cons x xs => rfl
    have h2m : jsToLower (jsTrim rawProvider) ∈ MapEntraIdClaims.allowedProviders := by
      simpa using h2
    simp [MapEntraIdClaims.mapEntraIdClaimsWorkflow, h2m, hE]
  · intro uid cid gA e
    rfl
  · intro isNew gb po pp
    cases isNew with
    | false => rfl
    | true =>
      cases hgb : gb with
      | error e => simp [CreateOrgOnSignUp.createOrgOnSignUp, hgb]
      | ok businessName =>
        cases hpo : po businessName with
        | error e => simp [CreateOrgOnSignUp.createOrgOnSignUp, hgb, hpo]
        | ok orgCode =>
          cases hpp : pp orgCode with
          | error e => simp [CreateOrgOnSignUp.createOrgOnSignUp, hgb, hpo, hpp]
          | ok u => simp [CreateOrgOnSignUp.createOrgOnSignUp, hgb, hpo, hpp]

/-- Witness for C7 amended: the Entra handler re-raises a concrete patch
failure on a non-empty batch. -/
theorem c7_amended_downstream_failure_policies_witness :
    MapEntraIdClaims.mapEntraIdClaimsWorkflow (some "oauth2") "entra" (some "u1")
      [("given_name", MapEntraIdClaims.JsValue.str "Ada")] "t0" (.ok ())
      (.error "patch failed") = .error "patch failed" :=
  c7_amended_downstream_failure_policies.1 "entra" "u1"
    [("given_name", MapEntraIdClaims.JsValue.str "Ada")] "t0" "patch failed"
    (by decide) (by decide)

/-- Claim C8: when the configured connection-ID environment variable is
absent (undefined or empty) the gate of both connection-gated SAML handlers
always rejects: the handler returns with no outbound write, for every event
connection ID and every assertion payload. -/
theorem c8_connection_id_gate_fail_closed :
    ∀ (connectionId : String) (envConnectionId : Option String)
      (attributeStatements : Option (List SamlAttributeStatement)),
      envConnectionId = none ∨ envConnectionId = some "" →
      OktaAttributesSync.handlePostAuth connectionId envConnectionId
          attributeStatements = none
      ∧ GoogleWorkspacePhoneSync.handlePostAuth connectionId envConnectionId
          attributeStatements = none := by
  intro connectionId env stmts h
  rcases h with rfl | rfl
  · exact ⟨rfl, rfl⟩
  · exact ⟨rfl, rfl⟩

/-- Witness for C8: the gate rejects concretely for an unset variable. -/
theorem c8_connection_id_gate_fail_closed_witness :
    OktaAttributesSync.handlePostAuth "conn_1" none none = none
    ∧ GoogleWorkspacePhoneSync.handlePostAuth "conn_1" none none = none :=
  c8_connection_id_gate_fail_closed "conn_1" none none (Or.inl rfl)

/-- Claim C10: in the find-based OktaAttributesSync handler, (1) findAttr
returns the FIRST matching attribute in flattened statement order (not the
last), and (2) single-valued extraction takes the first listed raw value
before any empty-string filtering, so a whitespace-only first value yields
null; (3,4,5) concretely: with two "groups" attributes the first wins, and an
attribute with values ["   ", "0412"] yields null from getFirstString even
though getAllStrings still sees "0412". -/
theorem c10_okta_first_occurrence_first_value :
    (∀ (pre : List SamlAttribute) (a : SamlAttribute) (post : List SamlAttribute)
       (names : List String),
      OktaAttributesSync.oktaMatches names a = true →
      (∀ b ∈ pre, OktaAttributesSync.oktaMatches names b = false) →
      OktaAttributesSync.findAttr (pre ++ a :: post) names = some a)
    ∧ (∀ (nm : Option String) (v0 : String) (rest : List SamlValue),
        jsTrim v0 = "" →
        OktaAttributesSync.getFirstString (some ⟨nm, some (⟨some v0⟩ :: rest)⟩) = none)
    ∧ OktaAttributesSync.findAttr
        [⟨some "groups", some [⟨some "g1"⟩]⟩, ⟨some "groups", some [⟨some "g2"⟩]⟩]
        ["groups"]
        = some ⟨some "groups", some [⟨some "g1"⟩]⟩
    ∧ OktaAttributesSync.getFirstString
        (some ⟨some "phone_number", some [⟨some "   "⟩, ⟨some "0412"⟩]⟩) = none
    ∧ OktaAttributesSync.getAllStrings
        (some ⟨some "phone_number", some [⟨some "   "⟩, ⟨some "0412"⟩]⟩) = ["0412"] := by
  refine ⟨?_, ?_, by decide, by decide, by decide⟩
  · intro pre a post names ha hpre
    induction pre with
    | nil =>
      rw [List.nil_append]
      exact List.find?_cons_of_pos _ ha
    | cons b pres ih =>
      have hb : ¬ OktaAttributesSync.oktaMatches names b = true := by
        simp [hpre b (List.mem_cons_self b pres)]
      rw [List.cons_append]
      unfold OktaAttributesSync.findAttr
      rw [List.find?_cons_of_neg _ hb]
      exact ih (fun b2 h2 => hpre b2 (List.mem_cons_of_mem b h2))
  · intro nm v0 rest h
    simp [OktaAttributesSync.getFirstString, h]

/-- Witness for C10: the general parts applied at concrete attributes. -/
theorem c10_okta_first_occurrence_first_value_witness :
    OktaAttributesSync.findAttr
        ([⟨some "user_type", some []⟩] ++ ⟨some "groups", some [⟨some "g1"⟩]⟩ ::
          [⟨some "groups", some [⟨some "g2"⟩]⟩]) ["groups"]
      = some ⟨some "groups", some [⟨some "g1"⟩]⟩
    ∧ OktaAttributesSync.getFirstString
        (some ⟨some "x", some (⟨some "  "⟩ :: [⟨some "later"⟩])⟩) = none := by
  constructor
  · exact c10_okta_first_occurrence_first_value.1
      [⟨some "user_type", some []⟩] ⟨some "groups", some [⟨some "g1"⟩]⟩
      [⟨some "groups", some [⟨some "g2"⟩]⟩] ["groups"] (by decide) (by decide)
  · exact c10_okta_first_occurrence_first_value.2.1 (some "x") "  " [⟨some "later"⟩]
      (by decide)

end WorkflowExamples
